import Mathlib

/-!
Verification of the sora2-common trust-verification core: the BEEFY-style
consensus-proof verifier (beefy-light-client) and the multisig peer-set
verifier, embedded shallowly.  The repository surface available here contains
only the pallets' tests and benchmarks, so the verifier bodies are modelled
from the specification, faithful to its operational description; hashes,
public keys and signatures are abstract numeric data, and the cryptographic
primitives (hashing, ECDSA recovery, seed expansion) are explicit functional
parameters gathered in a `Crypto` record, as the specification treats them as
external collaborators.
-/

set_option maxHeartbeats 1000000

namespace Sora2

/-! Bitfield primitives (spec section 4.1). -/

/-- Modelled from the spec: `BitField.is_set(i)` — the bitfield operations of
`bridge_common::bitfield` are not part of the available source surface.
Out-of-range access reads as an unset bit. -/
def is_set (bf : List Bool) (i : Nat) : Bool := bf.getD i false

/-- Modelled from the spec: `BitField.clear(i)`. -/
def clear (bf : List Bool) (i : Nat) : List Bool := bf.set i false

/-- Modelled from the spec: `BitField.count_set_bits()`. -/
def count_set_bits (bf : List Bool) : Nat := bf.count true

/-- Modelled from the spec: `BitField.create_bitfield(indices, length)` sets
exactly the given indices, zero elsewhere. -/
def create_bitfield (indices : List Nat) (length : Nat) : List Bool :=
  (List.range length).map (fun j => decide (j ∈ indices))

/-- BFT safety threshold: `T = N - (N - 1) / 3 - 1` (spec sections 4.2, 4.5). -/
def threshold (committee_len : Nat) : Nat :=
  committee_len - (committee_len - 1) / 3 - 1

/-! Randomized subset selector (spec section 4.2). -/

/-- Positions of the set bits of a bitfield, in ascending order. -/
def setIndices (bf : List Bool) : List Nat :=
  (List.range bf.length).filter (fun i => bf.getD i false)

/-- Modelled from the spec: the seed is deterministically expanded into a
sequence of index draws without replacement, confined to the available
positions; `prf` is the seed-expansion function, applied to a running
counter, and each draw removes the drawn position from the pool. -/
def drawRounds (prf : Nat → Nat) : Nat → Nat → List Nat → List Nat
  | 0, _, _ => []
  | _ + 1, _, [] => []
  | k + 1, ctr, a :: rest =>
    let pos := (a :: rest).getD (prf ctr % (a :: rest).length) 0
    pos :: drawRounds prf k (ctr + 1) ((a :: rest).erase pos)

/-- Modelled from the spec: `BeefyLightClient::create_random_bit_field` — the
selector returns a pseudo-random subset of exactly `threshold committee_len`
claimed positions, or fails when the claimed bitfield has fewer set bits than
the threshold.  The light-client body is not part of the available source
surface. -/
def create_random_bit_field (prf : Nat → Nat) (claimed : List Bool)
    (committee_len : Nat) : Option (List Bool) :=
  if (setIndices claimed).length < threshold committee_len then none
  else
    some (create_bitfield
      (drawRounds prf (threshold committee_len) 0 (setIndices claimed))
      claimed.length)

/-! Data model (spec section 3). -/

/-- A validator-set commitment: generation counter, committee size, and the
Merkle root of the ordered list of validator public keys. -/
structure ValidatorSet where
  id : Nat
  len : Nat
  root : Nat
  deriving DecidableEq

/-- A signed finality commitment; the payload is an ordered key-to-value
mapping that should contain the MMR root under a well-known key. -/
structure Commitment where
  payload : List (Nat × Nat)
  block_number : Nat
  validator_set_id : Nat
  deriving DecidableEq

/-- The evidence for the verified subset: four index-aligned parallel
sequences plus the full claims bitfield. -/
structure ValidatorProof where
  signatures : List (List Nat)
  positions : List Nat
  public_keys : List Nat
  public_key_merkle_proofs : List (List Nat)
  validator_claims_bitfield : List Bool
  deriving DecidableEq

/-- An MMR inclusion proof: sibling hashes plus an order bitfield saying, per
step, whether the supplied sibling is the left child. -/
structure SimplifiedMMRProof where
  merkle_proof_items : List Nat
  merkle_proof_order_bit_field : Nat
  deriving DecidableEq

/-- The application payload leaf; it embeds the next validator-set commitment
installed on rotation. -/
structure BeefyMMRLeaf where
  next_validator_set : ValidatorSet
  leaf_extra : Nat
  deriving DecidableEq

/-- Per-network trusted state of the light client once initialized. -/
structure LightClientState where
  current : ValidatorSet
  next : ValidatorSet
  deriving DecidableEq

/-- Error kinds of the consensus-proof verifier (spec section 7).
`InvalidInitialValidatorSetIds` models the unnamed rejection of the
initialization requirement `next_set.id == current_set.id + 1`. -/
inductive Error where
  | PalletNotInitialized
  | AlreadyInitialized
  | InvalidInitialValidatorSetIds
  | InvalidValidatorSetId
  | NotEnoughValidatorSignatures
  | InvalidNumberOfPositions
  | InvalidNumberOfSignatures
  | InvalidNumberOfPublicKeys
  | InvalidSignature
  | InvalidValidatorSetMerkleProof
  | ValidatorNotOnceInBitfield
  | ValidatorSetIncorrectPosition
  | MMRPayloadNotFound
  | InvalidMMRLeafProof
  deriving DecidableEq

/-- The external cryptographic collaborators (spec section 6): commitment
hashing, recoverable-signature recovery, public-key leaf hashing, the Merkle
node combiner, MMR leaf hashing, and the seed-expansion function for the
randomized subset selector. -/
structure Crypto where
  hashCommitment : Commitment → Nat
  recover : Nat → List Nat → Option Nat
  hashPublicKey : Nat → Nat
  node : Nat → Nat → Nat
  hashMMRLeaf : BeefyMMRLeaf → Nat
  prf : Nat → Nat

/-! Merkle and MMR proof verification (spec sections 4.3 and 4.4). -/

/-- Bottom-up Merkle path recomputation: at each level the running hash is
combined with the next sibling, ordered by the corresponding position bit. -/
def merkle_fold (node : Nat → Nat → Nat) : Nat → Nat → List Nat → Nat
  | _, h, [] => h
  | pos, h, sib :: rest =>
    merkle_fold node (pos / 2) (if pos % 2 = 0 then node h sib else node sib h) rest

/-- Modelled from the spec: single-leaf Merkle proof verification against a
committed root; the verifier body is not part of the available source
surface. -/
def merkle_verify (c : Crypto) (root : Nat) (leafHash : Nat) (position : Nat)
    (proof : List Nat) : Bool :=
  merkle_fold c.node position leafHash proof == root

/-- MMR path recomputation guided by the order bitfield: bit `i` says whether
sibling `i` is the left child. -/
def mmr_fold (node : Nat → Nat → Nat) : Nat → Nat → List Nat → Nat
  | _, h, [] => h
  | order, h, item :: rest =>
    mmr_fold node (order / 2) (if order % 2 = 1 then node item h else node h item) rest

/-- Modelled from the spec: MMR inclusion-proof verification; the verifier
body is not part of the available source surface. -/
def mmr_verify (c : Crypto) (root : Nat) (leaf : BeefyMMRLeaf)
    (proof : SimplifiedMMRProof) : Bool :=
  mmr_fold c.node proof.merkle_proof_order_bit_field (c.hashMMRLeaf leaf)
    proof.merkle_proof_items == root

/-- The well-known payload key of the MMR-root entry. -/
def mmr_root_id : Nat := 0

/-- First payload entry stored under the given key, if any. -/
def payload_get (payload : List (Nat × Nat)) (key : Nat) : Option Nat :=
  (payload.find? (fun p => p.1 == key)).map (fun p => p.2)

/-! Consensus-proof verifier (spec section 4.5). -/

/-- The trusted set matching a commitment's `validator_set_id`: the current
set, else the next set, else none. -/
def resolve_validator_set (s : LightClientState) (vid : Nat) :
    Option ValidatorSet :=
  if vid = s.current.id then some s.current
  else if vid = s.next.id then some s.next
  else none

/-- Modelled from the spec: per-entry verification of the selected subset
(spec step 7) — signature recovery against the claimed public key, Merkle
authentication of the public key at its position, and the two bitfield
integrity conditions, tracked with the original selected bitfield `rb0` and a
running copy `rb` from which used positions are cleared. -/
def verify_entries (c : Crypto) (root : Nat) (msgHash : Nat) :
    List Bool → List Bool → List Nat → List (List Nat) → List Nat →
    List (List Nat) → Except Error Unit
  | _, _, [], _, _, _ => .ok ()
  | rb0, rb, pos :: ps, sig :: sigs, pk :: pks, mp :: mps =>
    match c.recover msgHash sig with
    | none => .error .InvalidSignature
    | some addr =>
      if addr ≠ pk then .error .InvalidSignature
      else if ¬ merkle_verify c root (c.hashPublicKey pk) pos mp then
        .error .InvalidValidatorSetMerkleProof
      else if ¬ is_set rb0 pos then .error .ValidatorSetIncorrectPosition
      else if ¬ is_set rb pos then .error .ValidatorNotOnceInBitfield
      else verify_entries c root msgHash rb0 (clear rb pos) ps sigs pks mps
  | _, _, _, _, _, _ => .ok ()

/-- Validator-set rotation on full success (spec step 10): when the
commitment was signed by the current set and the leaf's embedded next-set
commitment differs from the stored next set, the pair advances. -/
def rotate (s : LightClientState) (commitment : Commitment)
    (leaf : BeefyMMRLeaf) : LightClientState :=
  if commitment.validator_set_id = s.current.id ∧
      leaf.next_validator_set ≠ s.next then
    { current := s.next, next := leaf.next_validator_set }
  else s

/-- Modelled from the spec: the body of `submit_signature_commitment` for an
initialized network, following spec steps 2 through 10 in order; the
light-client pallet body is not part of the available source surface. -/
def submit_body (c : Crypto) (s : LightClientState) (commitment : Commitment)
    (vproof : ValidatorProof) (leaf : BeefyMMRLeaf)
    (leaf_proof : SimplifiedMMRProof) : Except Error LightClientState :=
  match resolve_validator_set s commitment.validator_set_id with
  | none => .error .InvalidValidatorSetId
  | some vset =>
    if count_set_bits vproof.validator_claims_bitfield < threshold vset.len then
      .error .NotEnoughValidatorSignatures
    else
      match create_random_bit_field c.prf vproof.validator_claims_bitfield
          vset.len with
      | none => .error .NotEnoughValidatorSignatures
      | some rb =>
        if vproof.positions.length ≠ threshold vset.len then
          .error .InvalidNumberOfPositions
        else if vproof.signatures.length ≠ threshold vset.len then
          .error .InvalidNumberOfSignatures
        else if vproof.public_keys.length ≠ threshold vset.len then
          .error .InvalidNumberOfPublicKeys
        else if vproof.public_key_merkle_proofs.length ≠ threshold vset.len then
          .error .InvalidNumberOfPublicKeys
        else
          match verify_entries c vset.root (c.hashCommitment commitment) rb rb
              vproof.positions vproof.signatures vproof.public_keys
              vproof.public_key_merkle_proofs with
          | .error e => .error e
          | .ok _ =>
            match payload_get commitment.payload mmr_root_id with
            | none => .error .MMRPayloadNotFound
            | some root =>
              if mmr_verify c root leaf leaf_proof then
                .ok (rotate s commitment leaf)
              else .error .InvalidMMRLeafProof

/-- Modelled from the spec: `submit_signature_commitment` — an uninitialized
network rejects every submission with `PalletNotInitialized` (spec step 1);
otherwise the submission is validated by `submit_body`. -/
def submit_signature_commitment (c : Crypto) (st : Option LightClientState)
    (commitment : Commitment) (vproof : ValidatorProof) (leaf : BeefyMMRLeaf)
    (leaf_proof : SimplifiedMMRProof) : Except Error LightClientState :=
  match st with
  | none => .error .PalletNotInitialized
  | some s => submit_body c s commitment vproof leaf leaf_proof

/-- Modelled from the spec: `initialize` — caller-privileged, fails with
`AlreadyInitialized` on an initialized network, and requires
`next_set.id == current_set.id + 1` (the spec names no error kind for a
violation of the requirement; the model rejects it with
`InvalidInitialValidatorSetIds`).  The pallet body is not part of the
available source surface. -/
def initialize_pallet (st : Option LightClientState)
    (current_set next_set : ValidatorSet) : Except Error LightClientState :=
  match st with
  | some _ => .error .AlreadyInitialized
  | none =>
    if next_set.id = current_set.id + 1 then
      .ok { current := current_set, next := next_set }
    else .error .InvalidInitialValidatorSetIds

/-- Call semantics of a submission at the dispatch boundary: the per-network
state is replaced only on success; a rejection keeps the pre-call state and
surfaces the single error kind. -/
def submit_call (c : Crypto) (st : Option LightClientState)
    (commitment : Commitment) (vproof : ValidatorProof) (leaf : BeefyMMRLeaf)
    (leaf_proof : SimplifiedMMRProof) :
    Option LightClientState × Option Error :=
  match submit_signature_commitment c st commitment vproof leaf leaf_proof with
  | .ok s => (some s, none)
  | .error e => (st, some e)

/-- Call semantics of `initialize` at the dispatch boundary. -/
def initialize_call (st : Option LightClientState)
    (current_set next_set : ValidatorSet) :
    Option LightClientState × Option Error :=
  match initialize_pallet st current_set next_set with
  | .ok s => (some s, none)
  | .error e => (st, some e)

/-! Multisig peer-set verifier (spec section 4.6). -/

/-- Error kinds of the multisig peer-set verifier (spec section 7).
`NotInitialized` models the rejection of a mutation on a network whose peer
set is absent. -/
inductive MsigError where
  | AlreadyInitialized
  | NotInitialized
  | EmptyPeerSet
  | PeerAlreadyExists
  | PeerNotFound
  | CannotRemoveBelowThreshold
  | NotEnoughSignatures
  deriving DecidableEq

/-- Notification events of the multisig verifier (spec section 6). -/
inductive MsigEvent where
  | NetworkInitialized
  | PeerAdded (key : Nat)
  | PeerRemoved (key : Nat)
  deriving DecidableEq

/-- Modelled from the spec: the minimum peer-set size that can ever reach a
threshold again.  Since `threshold m ≤ m` for every nonempty set while an
empty set can never reach any requirement, the minimum viable size is one
peer. -/
def min_viable_peer_count : Nat := 1

/-- Modelled from the spec: multisig `initialize(network, peers)` — fails
with `AlreadyInitialized` if the peer set exists and with `EmptyPeerSet` on
an empty peer list; the pallet body is not part of the available source
surface. -/
def initialize_msig_network (st : Option (List Nat)) (peers : List Nat) :
    Except MsigError (List Nat × MsigEvent) :=
  match st with
  | some _ => .error .AlreadyInitialized
  | none =>
    if peers.isEmpty then .error .EmptyPeerSet
    else .ok (peers, .NetworkInitialized)

/-- Modelled from the spec: `add_peer(network, key)` — fails with
`PeerAlreadyExists` when the key is present; the pallet body is not part of
the available source surface. -/
def add_peer (st : Option (List Nat)) (key : Nat) :
    Except MsigError (List Nat × MsigEvent) :=
  match st with
  | none => .error .NotInitialized
  | some peers =>
    if key ∈ peers then .error .PeerAlreadyExists
    else .ok (peers ++ [key], .PeerAdded key)

/-- Modelled from the spec: `remove_peer(network, key)` — fails with
`PeerNotFound` when the key is absent and with `CannotRemoveBelowThreshold`
when removal would shrink the set below the minimum viable size; otherwise it
removes the key and emits `PeerRemoved`.  The pallet body is not part of the
available source surface. -/
def remove_peer (st : Option (List Nat)) (key : Nat) :
    Except MsigError (List Nat × MsigEvent) :=
  match st with
  | none => .error .NotInitialized
  | some peers =>
    if key ∉ peers then .error .PeerNotFound
    else if peers.length - 1 < min_viable_peer_count then
      .error .CannotRemoveBelowThreshold
    else .ok (peers.erase key, .PeerRemoved key)

/-- Call semantics of a multisig mutation at the dispatch boundary: `r` is
the operation's outcome on the pre-call peer set `st`. -/
def msig_call (st : Option (List Nat))
    (r : Except MsigError (List Nat × MsigEvent)) :
    Option (List Nat) × Option MsigError :=
  match r with
  | .ok pr => (some pr.1, none)
  | .error e => (st, some e)


/-! Concrete instantiation used to exercise the full success path: an
arbitrary executable choice of the external cryptographic collaborators and
a two-validator fixture whose evidence fully validates under it. -/

/-- A concrete executable instantiation of the cryptographic collaborators. -/
def toyCrypto : Crypto where
  hashCommitment := fun _ => 0
  recover := fun _ sig => sig.head?
  hashPublicKey := fun pk => pk
  node := fun a b => a + 2 * b + 1
  hashMMRLeaf := fun _ => 9
  prf := fun _ => 0

/-- Fixture: the trusted current validator set (two validators, public keys 5
and 6, Merkle root computed with `toyCrypto.node`). -/
def fixCurrentSet : ValidatorSet := { id := 0, len := 2, root := 18 }

/-- Fixture: the announced next validator set. -/
def fixNextSet : ValidatorSet := { id := 1, len := 2, root := 18 }

/-- Fixture: the light-client state right after initialization. -/
def fixState : LightClientState := { current := fixCurrentSet, next := fixNextSet }

/-- Fixture: a commitment signed by the current set, carrying the MMR root 9
under the well-known payload key. -/
def fixCommitment : Commitment :=
  { payload := [(mmr_root_id, 9)], block_number := 0, validator_set_id := 0 }

/-- Fixture: a leaf whose embedded next-set commitment has the generation
that follows the stored next set. -/
def fixLeafGood : BeefyMMRLeaf :=
  { next_validator_set := { id := 2, len := 2, root := 18 }, leaf_extra := 0 }

/-- Fixture: a leaf whose embedded next-set commitment skips generations. -/
def fixLeafRogue : BeefyMMRLeaf :=
  { next_validator_set := { id := 5, len := 2, root := 18 }, leaf_extra := 0 }

/-- Fixture: the (empty) MMR inclusion proof of the fixture leaves. -/
def fixLeafProof : SimplifiedMMRProof :=
  { merkle_proof_items := [], merkle_proof_order_bit_field := 0 }

/-- Fixture: evidence that fully validates under `toyCrypto`: both committee
bits claimed, and the selected subset (position 0) carries a recovering
signature and an authenticating Merkle path. -/
def fixProof : ValidatorProof :=
  { signatures := [[5]]
    positions := [0]
    public_keys := [5]
    public_key_merkle_proofs := [[6]]
    validator_claims_bitfield := [true, true] }

/-- Fixture: the post-state of a successful submission with `fixLeafGood`:
the sets rotate to (`fixNextSet`, the leaf's embedded next set). -/
def fixPostGood : LightClientState :=
  { current := fixNextSet, next := { id := 2, len := 2, root := 18 } }

/-- Fixture: the post-state of a successful submission with `fixLeafRogue`. -/
def fixPostRogue : LightClientState :=
  { current := fixNextSet, next := { id := 5, len := 2, root := 18 } }

/-- Fixture: evidence claiming no committee bit at all. -/
def fixProofNoClaims : ValidatorProof :=
  { fixProof with validator_claims_bitfield := [false, false] }

/-- Fixture: a commitment whose validator-set id matches neither trusted
set. -/
def fixCommitmentBadId : Commitment := { fixCommitment with validator_set_id := 7 }

end Sora2

deriving instance DecidableEq for Except

namespace Sora2

/-! Supporting lemmas about the bitfield primitives and the randomized
subset selector. -/

theorem countP_range_getD (bf : List Bool) :
    (List.range bf.length).countP (fun i => bf.getD i false) = bf.count true := by
  induction bf with
  | nil => rfl
  | cons b bs ih =>
    rw [List.length_cons, List.range_succ_eq_map, List.countP_cons, List.countP_map,
      List.count_cons]
    simp only [Function.comp_def, List.getD_cons_succ, List.getD_cons_zero]
    rw [ih]
    cases b <;> simp

theorem length_setIndices (bf : List Bool) :
    (setIndices bf).length = count_set_bits bf := by
  rw [setIndices, ← List.countP_eq_length_filter, count_set_bits]
  exact countP_range_getD bf

theorem nodup_setIndices (bf : List Bool) : (setIndices bf).Nodup :=
  (List.nodup_range _).filter _

theorem mem_setIndices {bf : List Bool} {i : Nat} :
    i ∈ setIndices bf ↔ i < bf.length ∧ bf.getD i false = true := by
  simp [setIndices, List.mem_filter, List.mem_range]

theorem getD_mem_of_lt {l : List Nat} {j : Nat} (h : j < l.length) (d : Nat) :
    l.getD j d ∈ l := by
  rw [List.getD_eq_getElem?_getD, List.getElem?_eq_getElem h]
  exact List.getElem_mem h

theorem drawRounds_subset (prf : Nat → Nat) :
    ∀ (k ctr : Nat) (avail : List Nat) (x : Nat),
      x ∈ drawRounds prf k ctr avail → x ∈ avail := by
  intro k
  induction k with
  | zero => intro ctr avail x hx; simp [drawRounds] at hx
  | succ k ih =>
    intro ctr avail x hx
    match avail with
    | [] => simp [drawRounds] at hx
    | a :: rest =>
      rw [drawRounds] at hx
      simp only [List.mem_cons] at hx
      rcases hx with rfl | hx
      · exact getD_mem_of_lt (Nat.mod_lt _ (by simp)) 0
      · exact List.erase_subset _ _ (ih _ _ _ hx)

theorem drawRounds_length (prf : Nat → Nat) :
    ∀ (k ctr : Nat) (avail : List Nat), k ≤ avail.length →
      (drawRounds prf k ctr avail).length = k := by
  intro k
  induction k with
  | zero => intro ctr avail _; rfl
  | succ k ih =>
    intro ctr avail hk
    match avail with
    | [] => simp at hk
    | a :: rest =>
      have hmem : (a :: rest).getD (prf ctr % (a :: rest).length) 0 ∈ a :: rest :=
        getD_mem_of_lt (Nat.mod_lt _ (by simp)) 0
      have hlen := List.length_erase_of_mem hmem
      rw [drawRounds, List.length_cons, ih]
      rw [hlen]
      simp only [List.length_cons] at hk ⊢
      omega

theorem drawRounds_nodup (prf : Nat → Nat) :
    ∀ (k ctr : Nat) (avail : List Nat), avail.Nodup →
      (drawRounds prf k ctr avail).Nodup := by
  intro k
  induction k with
  | zero => intro ctr avail _; simp [drawRounds]
  | succ k ih =>
    intro ctr avail hnd
    match avail with
    | [] => simp [drawRounds]
    | a :: rest =>
      rw [drawRounds]
      refine List.nodup_cons.mpr ⟨?_, ih _ _ (hnd.erase _)⟩
      intro hmem
      have := drawRounds_subset prf _ _ _ _ hmem
      rw [List.Nodup.mem_erase_iff hnd] at this
      exact this.1 rfl

theorem is_set_create_bitfield {ids : List Nat} {len j : Nat} :
    is_set (create_bitfield ids len) j = true ↔ j ∈ ids ∧ j < len := by
  unfold is_set create_bitfield
  rcases Nat.lt_or_ge j len with h | h
  · rw [List.getD_eq_getElem?_getD, List.getElem?_map, List.getElem?_range h]
    simp [h]
  · have hnone : ((List.range len).map (fun j => decide (j ∈ ids)))[j]? = none := by
      rw [List.getElem?_eq_none]
      simpa using h
    rw [List.getD_eq_getElem?_getD, hnone]
    simp
    omega

theorem count_create_bitfield {ids : List Nat} {len : Nat} (hnd : ids.Nodup)
    (hlt : ∀ i ∈ ids, i < len) :
    count_set_bits (create_bitfield ids len) = ids.length := by
  unfold count_set_bits create_bitfield
  rw [List.count_eq_countP, List.countP_map]
  have hfun : ((fun x => x == true) ∘ fun j => decide (j ∈ ids)) =
      fun j => decide (j ∈ ids) := by
    funext j
    simp [Function.comp]
  rw [hfun, List.countP_eq_length_filter]
  have hperm : List.Perm ((List.range len).filter (fun j => decide (j ∈ ids))) ids := by
    rw [List.perm_ext_iff_of_nodup ((List.nodup_range len).filter _) hnd]
    intro a
    simp only [List.mem_filter, List.mem_range, decide_eq_true_eq]
    exact ⟨fun hx => hx.2, fun hx => ⟨hlt a hx, hx⟩⟩
  exact hperm.length_eq

theorem create_random_bit_field_props (prf : Nat → Nat) (claimed : List Bool)
    (committee_len : Nat)
    (h : threshold committee_len ≤ count_set_bits claimed) :
    ∃ bf, create_random_bit_field prf claimed committee_len = some bf ∧
      count_set_bits bf = threshold committee_len ∧
      (∀ j, is_set bf j = true → is_set claimed j = true) := by
  have hlen : threshold committee_len ≤ (setIndices claimed).length := by
    rw [length_setIndices]
    exact h
  have hsub : ∀ x ∈ drawRounds prf (threshold committee_len) 0 (setIndices claimed),
      x ∈ setIndices claimed := fun x hx => drawRounds_subset prf _ _ _ _ hx
  refine ⟨create_bitfield (drawRounds prf (threshold committee_len) 0
      (setIndices claimed)) claimed.length, ?_, ?_, ?_⟩
  · unfold create_random_bit_field
    rw [if_neg (Nat.not_lt.mpr hlen)]
  · rw [count_create_bitfield
      (drawRounds_nodup prf _ _ _ (nodup_setIndices claimed))
      (fun i hi => (mem_setIndices.mp (hsub i hi)).1)]
    exact drawRounds_length prf _ _ _ hlen
  · intro j hj
    rcases is_set_create_bitfield.mp hj with ⟨hmem, _⟩
    exact (mem_setIndices.mp (hsub j hmem)).2

/-! Supporting lemmas about the submission pipeline. -/

theorem submit_body_ok_elim {c : Crypto} {s : LightClientState}
    {commitment : Commitment} {vproof : ValidatorProof} {leaf : BeefyMMRLeaf}
    {leaf_proof : SimplifiedMMRProof} {st' : LightClientState}
    (h : submit_body c s commitment vproof leaf leaf_proof = .ok st') :
    ∃ vset rb root,
      resolve_validator_set s commitment.validator_set_id = some vset ∧
      ¬ count_set_bits vproof.validator_claims_bitfield < threshold vset.len ∧
      create_random_bit_field c.prf vproof.validator_claims_bitfield vset.len
        = some rb ∧
      vproof.positions.length = threshold vset.len ∧
      vproof.signatures.length = threshold vset.len ∧
      vproof.public_keys.length = threshold vset.len ∧
      vproof.public_key_merkle_proofs.length = threshold vset.len ∧
      verify_entries c vset.root (c.hashCommitment commitment) rb rb
        vproof.positions vproof.signatures vproof.public_keys
        vproof.public_key_merkle_proofs = .ok () ∧
      payload_get commitment.payload mmr_root_id = some root ∧
      mmr_verify c root leaf leaf_proof = true ∧
      st' = rotate s commitment leaf := by
  unfold submit_body at h
  split at h
  case _ => exact absurd h (by simp)
  case _ vset hres =>
    split at h
    case isTrue => exact absurd h (by simp)
    case isFalse hcount =>
      split at h
      case _ => exact absurd h (by simp)
      case _ rb hrb =>
        split at h
        case isTrue => exact absurd h (by simp)
        case isFalse hpos =>
          split at h
          case isTrue => exact absurd h (by simp)
          case isFalse hsig =>
            split at h
            case isTrue => exact absurd h (by simp)
            case isFalse hpk =>
              split at h
              case isTrue => exact absurd h (by simp)
              case isFalse hmp =>
                split at h
                case _ => exact absurd h (by simp)
                case _ u hver =>
                  split at h
                  case _ => exact absurd h (by simp)
                  case _ root hroot =>
                    split at h
                    case isFalse => exact absurd h (by simp)
                    case isTrue hmmr =>
                      refine ⟨vset, rb, root, hres, hcount, hrb, ?_, ?_, ?_, ?_,
                        ?_, hroot, hmmr, ?_⟩ <;> first
                        | omega
                        | (cases u; exact hver)
                        | (cases h; rfl)

theorem submit_body_invalid_id {c : Crypto} {s : LightClientState}
    {commitment : Commitment} {vproof : ValidatorProof} {leaf : BeefyMMRLeaf}
    {leaf_proof : SimplifiedMMRProof}
    (hres : resolve_validator_set s commitment.validator_set_id = none) :
    submit_body c s commitment vproof leaf leaf_proof
      = .error .InvalidValidatorSetId := by
  unfold submit_body
  simp only [hres]

theorem submit_body_not_enough {c : Crypto} {s : LightClientState}
    {commitment : Commitment} {vproof : ValidatorProof} {leaf : BeefyMMRLeaf}
    {leaf_proof : SimplifiedMMRProof} {vset : ValidatorSet}
    (hres : resolve_validator_set s commitment.validator_set_id = some vset)
    (hlt : count_set_bits vproof.validator_claims_bitfield < threshold vset.len) :
    submit_body c s commitment vproof leaf leaf_proof
      = .error .NotEnoughValidatorSignatures := by
  unfold submit_body
  simp only [hres]
  rw [if_pos hlt]

theorem submit_body_bad_positions {c : Crypto} {s : LightClientState}
    {commitment : Commitment} {vproof : ValidatorProof} {leaf : BeefyMMRLeaf}
    {leaf_proof : SimplifiedMMRProof} {vset : ValidatorSet} {rb : List Bool}
    (hres : resolve_validator_set s commitment.validator_set_id = some vset)
    (hge : ¬ count_set_bits vproof.validator_claims_bitfield < threshold vset.len)
    (hrb : create_random_bit_field c.prf vproof.validator_claims_bitfield
      vset.len = some rb)
    (hpos : vproof.positions.length ≠ threshold vset.len) :
    submit_body c s commitment vproof leaf leaf_proof
      = .error .InvalidNumberOfPositions := by
  unfold submit_body
  simp only [hres, hrb]
  rw [if_neg hge]
  rw [if_pos hpos]

theorem submit_body_bad_signatures {c : Crypto} {s : LightClientState}
    {commitment : Commitment} {vproof : ValidatorProof} {leaf : BeefyMMRLeaf}
    {leaf_proof : SimplifiedMMRProof} {vset : ValidatorSet} {rb : List Bool}
    (hres : resolve_validator_set s commitment.validator_set_id = some vset)
    (hge : ¬ count_set_bits vproof.validator_claims_bitfield < threshold vset.len)
    (hrb : create_random_bit_field c.prf vproof.validator_claims_bitfield
      vset.len = some rb)
    (hpos : vproof.positions.length = threshold vset.len)
    (hsig : vproof.signatures.length ≠ threshold vset.len) :
    submit_body c s commitment vproof leaf leaf_proof
      = .error .InvalidNumberOfSignatures := by
  unfold submit_body
  simp only [hres, hrb]
  rw [if_neg hge, if_neg (fun hc => hc hpos), if_pos hsig]

theorem submit_body_bad_public_keys {c : Crypto} {s : LightClientState}
    {commitment : Commitment} {vproof : ValidatorProof} {leaf : BeefyMMRLeaf}
    {leaf_proof : SimplifiedMMRProof} {vset : ValidatorSet} {rb : List Bool}
    (hres : resolve_validator_set s commitment.validator_set_id = some vset)
    (hge : ¬ count_set_bits vproof.validator_claims_bitfield < threshold vset.len)
    (hrb : create_random_bit_field c.prf vproof.validator_claims_bitfield
      vset.len = some rb)
    (hpos : vproof.positions.length = threshold vset.len)
    (hsig : vproof.signatures.length = threshold vset.len)
    (hpk : vproof.public_keys.length ≠ threshold vset.len) :
    submit_body c s commitment vproof leaf leaf_proof
      = .error .InvalidNumberOfPublicKeys := by
  unfold submit_body
  simp only [hres, hrb]
  rw [if_neg hge, if_neg (fun hc => hc hpos), if_neg (fun hc => hc hsig),
    if_pos hpk]

theorem submit_body_bad_merkle_proof_count {c : Crypto} {s : LightClientState}
    {commitment : Commitment} {vproof : ValidatorProof} {leaf : BeefyMMRLeaf}
    {leaf_proof : SimplifiedMMRProof} {vset : ValidatorSet} {rb : List Bool}
    (hres : resolve_validator_set s commitment.validator_set_id = some vset)
    (hge : ¬ count_set_bits vproof.validator_claims_bitfield < threshold vset.len)
    (hrb : create_random_bit_field c.prf vproof.validator_claims_bitfield
      vset.len = some rb)
    (hpos : vproof.positions.length = threshold vset.len)
    (hsig : vproof.signatures.length = threshold vset.len)
    (hpk : vproof.public_keys.length = threshold vset.len)
    (hmp : vproof.public_key_merkle_proofs.length ≠ threshold vset.len) :
    submit_body c s commitment vproof leaf leaf_proof
      = .error .InvalidNumberOfPublicKeys := by
  unfold submit_body
  simp only [hres, hrb]
  rw [if_neg hge, if_neg (fun hc => hc hpos), if_neg (fun hc => hc hsig),
    if_neg (fun hc => hc hpk), if_pos hmp]

end Sora2

namespace Sora2

/-! The claims. -/

/-- C1: For every initialized network whose trusted set matching the
commitment has committee size `vset.len`, a claims bitfield with fewer set
bits than `threshold vset.len` makes `submit_signature_commitment` fail with
`NotEnoughValidatorSignatures`; in particular, replacing the claims bitfield
of an otherwise-accepted submission by one whose set-bit count is below the
threshold turns acceptance into `NotEnoughValidatorSignatures`. -/
theorem claim1_not_enough_validator_signatures (c : Crypto)
    (s : LightClientState) (commitment : Commitment) (vproof : ValidatorProof)
    (leaf : BeefyMMRLeaf) (leaf_proof : SimplifiedMMRProof) (vset : ValidatorSet)
    (hres : resolve_validator_set s commitment.validator_set_id = some vset) :
    (count_set_bits vproof.validator_claims_bitfield < threshold vset.len →
      submit_signature_commitment c (some s) commitment vproof leaf leaf_proof
        = .error .NotEnoughValidatorSignatures) ∧
    (∀ st' bf, submit_signature_commitment c (some s) commitment vproof leaf
        leaf_proof = .ok st' →
      count_set_bits bf < threshold vset.len →
      submit_signature_commitment c (some s) commitment
        { vproof with validator_claims_bitfield := bf } leaf leaf_proof
        = .error .NotEnoughValidatorSignatures) := by
  constructor
  · intro hlt
    exact submit_body_not_enough hres hlt
  · intro st' bf _hok hlt
    exact @submit_body_not_enough c s commitment
      { vproof with validator_claims_bitfield := bf } leaf leaf_proof vset
      hres hlt

theorem claim1_witness :
    resolve_validator_set fixState fixCommitment.validator_set_id
      = some fixCurrentSet ∧
    count_set_bits fixProofNoClaims.validator_claims_bitfield
      < threshold fixCurrentSet.len ∧
    submit_signature_commitment toyCrypto (some fixState) fixCommitment
      fixProofNoClaims fixLeafGood fixLeafProof
      = .error .NotEnoughValidatorSignatures :=
  ⟨by decide, by decide,
    (claim1_not_enough_validator_signatures toyCrypto fixState fixCommitment
      fixProofNoClaims fixLeafGood fixLeafProof fixCurrentSet (by decide)).1
      (by decide)⟩

/-- C2: On a fully successful submission from a state satisfying the stored
invariant `next.id = current.id + 1`: if the commitment's validator-set id
equals the current set's id and the leaf's embedded next-set commitment
differs from the stored next set, the trusted sets rotate to
(`next`, leaf's next set); if it equals the next set's id, no rotation
occurs, so re-submitting the same epoch's commitment never rotates twice. -/
theorem claim2_rotation_semantics (c : Crypto) (s : LightClientState)
    (commitment : Commitment) (vproof : ValidatorProof) (leaf : BeefyMMRLeaf)
    (leaf_proof : SimplifiedMMRProof) (st' : LightClientState)
    (hinv : s.next.id = s.current.id + 1)
    (hok : submit_signature_commitment c (some s) commitment vproof leaf
      leaf_proof = .ok st') :
    (commitment.validator_set_id = s.current.id →
      leaf.next_validator_set ≠ s.next →
      st' = { current := s.next, next := leaf.next_validator_set }) ∧
    (commitment.validator_set_id = s.next.id → st' = s) := by
  have hok' : submit_body c s commitment vproof leaf leaf_proof = .ok st' := hok
  obtain ⟨vset, rb, root, _, _, _, _, _, _, _, _, _, _, hrot⟩ :=
    submit_body_ok_elim hok'
  subst hrot
  constructor
  · intro hid hne
    unfold rotate
    rw [if_pos ⟨hid, hne⟩]
  · intro hid
    unfold rotate
    rw [if_neg]
    intro hc
    have : s.current.id = s.next.id := by rw [← hc.1, hid]
    omega

theorem claim2_witness :
    fixPostGood = { current := fixState.next,
                    next := fixLeafGood.next_validator_set } ∧
    fixPostGood = { current := fixNextSet,
                    next := { id := 2, len := 2, root := 18 } } :=
  ⟨(claim2_rotation_semantics toyCrypto fixState fixCommitment fixProof
      fixLeafGood fixLeafProof fixPostGood (by decide) (by decide)).1
      (by decide) (by decide),
    by decide⟩

/-- C3: Every failing path of `submit_signature_commitment` and of every
other entry point surfaces exactly one error kind (by the shape of
`Except`) and leaves the per-network trusted state exactly as it was
before the call: at the dispatch boundary, an error outcome keeps the
pre-call state. -/
theorem claim3_rejections_preserve_state :
    (∀ c st commitment vproof leaf leaf_proof e,
      (submit_call c st commitment vproof leaf leaf_proof).2 = some e →
      (submit_call c st commitment vproof leaf leaf_proof).1 = st) ∧
    (∀ st current_set next_set e,
      (initialize_call st current_set next_set).2 = some e →
      (initialize_call st current_set next_set).1 = st) ∧
    (∀ st peers e,
      (msig_call st (initialize_msig_network st peers)).2 = some e →
      (msig_call st (initialize_msig_network st peers)).1 = st) ∧
    (∀ st key e,
      (msig_call st (add_peer st key)).2 = some e →
      (msig_call st (add_peer st key)).1 = st) ∧
    (∀ st key e,
      (msig_call st (remove_peer st key)).2 = some e →
      (msig_call st (remove_peer st key)).1 = st) := by
  refine ⟨?_, ?_, ?_, ?_, ?_⟩
  · intro c st commitment vproof leaf leaf_proof e h
    unfold submit_call at h ⊢
    cases hr : submit_signature_commitment c st commitment vproof leaf leaf_proof with
    | ok s => rw [hr] at h; simp at h
    | error e2 => rfl
  · intro st current_set next_set e h
    unfold initialize_call at h ⊢
    cases hr : initialize_pallet st current_set next_set with
    | ok s => rw [hr] at h; simp at h
    | error e2 => rfl
  · intro st peers e h
    unfold msig_call at h ⊢
    cases hr : initialize_msig_network st peers with
    | ok p => rw [hr] at h; simp at h
    | error e2 => rfl
  · intro st key e h
    unfold msig_call at h ⊢
    cases hr : add_peer st key with
    | ok p => rw [hr] at h; simp at h
    | error e2 => rfl
  · intro st key e h
    unfold msig_call at h ⊢
    cases hr : remove_peer st key with
    | ok p => rw [hr] at h; simp at h
    | error e2 => rfl

theorem claim3_witness :
    (submit_call toyCrypto none fixCommitment fixProof fixLeafGood
      fixLeafProof).1 = none :=
  claim3_rejections_preserve_state.1 toyCrypto none fixCommitment fixProof
    fixLeafGood fixLeafProof Error.PalletNotInitialized (by decide)

/-- C4: On an uninitialized network, `submit_signature_commitment` fails with
`PalletNotInitialized` regardless of the commitment and the proofs; after a
successful initialization, an otherwise-identical submission with valid
evidence succeeds. -/
theorem claim4_uninitialized_gate :
    (∀ c commitment vproof leaf leaf_proof,
      submit_signature_commitment c none commitment vproof leaf leaf_proof
        = .error .PalletNotInitialized) ∧
    initialize_pallet none fixCurrentSet fixNextSet = .ok fixState ∧
    submit_signature_commitment toyCrypto none fixCommitment fixProof
      fixLeafGood fixLeafProof = .error .PalletNotInitialized ∧
    submit_signature_commitment toyCrypto (some fixState) fixCommitment
      fixProof fixLeafGood fixLeafProof = .ok fixPostGood :=
  ⟨fun _ _ _ _ _ => rfl, by decide, by decide, by decide⟩

/-- C5: For every initialized network, a commitment whose validator-set id
equals neither the current set's id nor the next set's id makes
`submit_signature_commitment` fail with `InvalidValidatorSetId`, regardless
of the evidence supplied. -/
theorem claim5_invalid_validator_set_id (c : Crypto) (s : LightClientState)
    (commitment : Commitment) (vproof : ValidatorProof) (leaf : BeefyMMRLeaf)
    (leaf_proof : SimplifiedMMRProof)
    (hcur : commitment.validator_set_id ≠ s.current.id)
    (hnext : commitment.validator_set_id ≠ s.next.id) :
    submit_signature_commitment c (some s) commitment vproof leaf leaf_proof
      = .error .InvalidValidatorSetId := by
  have hres : resolve_validator_set s commitment.validator_set_id = none := by
    unfold resolve_validator_set
    rw [if_neg hcur, if_neg hnext]
  exact submit_body_invalid_id hres

theorem claim5_witness :
    submit_signature_commitment toyCrypto (some fixState) fixCommitmentBadId
      fixProof fixLeafGood fixLeafProof = .error .InvalidValidatorSetId :=
  claim5_invalid_validator_set_id toyCrypto fixState fixCommitmentBadId
    fixProof fixLeafGood fixLeafProof (by decide) (by decide)

/-- C6: Starting from an otherwise-valid (accepted) validator proof,
replacing any one of the four parallel sequences by one whose length differs
from the expected threshold count — in particular one element shorter or
longer — makes `submit_signature_commitment` fail with the matching error for
exactly that field: `InvalidNumberOfPositions` for positions,
`InvalidNumberOfSignatures` for signatures, and `InvalidNumberOfPublicKeys`
for public keys and for their Merkle proofs; both too-short and too-long
sequences are rejected against the expected size. -/
theorem claim6_sequence_length_checks (c : Crypto) (s : LightClientState)
    (commitment : Commitment) (vproof : ValidatorProof) (leaf : BeefyMMRLeaf)
    (leaf_proof : SimplifiedMMRProof) (st' : LightClientState)
    (hok : submit_signature_commitment c (some s) commitment vproof leaf
      leaf_proof = .ok st') :
    (∀ ps, ps.length ≠ vproof.positions.length →
      submit_signature_commitment c (some s) commitment
        { vproof with positions := ps } leaf leaf_proof
        = .error .InvalidNumberOfPositions) ∧
    (∀ sigs, sigs.length ≠ vproof.signatures.length →
      submit_signature_commitment c (some s) commitment
        { vproof with signatures := sigs } leaf leaf_proof
        = .error .InvalidNumberOfSignatures) ∧
    (∀ pks, pks.length ≠ vproof.public_keys.length →
      submit_signature_commitment c (some s) commitment
        { vproof with public_keys := pks } leaf leaf_proof
        = .error .InvalidNumberOfPublicKeys) ∧
    (∀ mps, mps.length ≠ vproof.public_key_merkle_proofs.length →
      submit_signature_commitment c (some s) commitment
        { vproof with public_key_merkle_proofs := mps } leaf leaf_proof
        = .error .InvalidNumberOfPublicKeys) := by
  have hok' : submit_body c s commitment vproof leaf leaf_proof = .ok st' := hok
  obtain ⟨vset, rb, root, hres, hge, hrb, hpos, hsig, hpk, hmp, _, _, _, _⟩ :=
    submit_body_ok_elim hok'
  refine ⟨?_, ?_, ?_, ?_⟩
  · intro ps hne
    rw [hpos] at hne
    exact @submit_body_bad_positions c s commitment
      { vproof with positions := ps } leaf leaf_proof vset rb hres hge hrb hne
  · intro sigs hne
    rw [hsig] at hne
    exact @submit_body_bad_signatures c s commitment
      { vproof with signatures := sigs } leaf leaf_proof vset rb hres hge hrb
      hpos hne
  · intro pks hne
    rw [hpk] at hne
    exact @submit_body_bad_public_keys c s commitment
      { vproof with public_keys := pks } leaf leaf_proof vset rb hres hge hrb
      hpos hsig hne
  · intro mps hne
    rw [hmp] at hne
    exact @submit_body_bad_merkle_proof_count c s commitment
      { vproof with public_key_merkle_proofs := mps } leaf leaf_proof vset rb
      hres hge hrb hpos hsig hpk hne

theorem claim6_witness :
    submit_signature_commitment toyCrypto (some fixState) fixCommitment
      { fixProof with signatures := [] } fixLeafGood fixLeafProof
      = .error .InvalidNumberOfSignatures ∧
    submit_signature_commitment toyCrypto (some fixState) fixCommitment
      { fixProof with signatures := [[5], [5]] } fixLeafGood fixLeafProof
      = .error .InvalidNumberOfSignatures ∧
    submit_signature_commitment toyCrypto (some fixState) fixCommitment
      { fixProof with positions := [0, 1] } fixLeafGood fixLeafProof
      = .error .InvalidNumberOfPositions ∧
    submit_signature_commitment toyCrypto (some fixState) fixCommitment
      { fixProof with public_key_merkle_proofs := [] } fixLeafGood fixLeafProof
      = .error .InvalidNumberOfPublicKeys :=
  ⟨((claim6_sequence_length_checks toyCrypto fixState fixCommitment fixProof
      fixLeafGood fixLeafProof fixPostGood (by decide)).2.1) [] (by decide),
   ((claim6_sequence_length_checks toyCrypto fixState fixCommitment fixProof
      fixLeafGood fixLeafProof fixPostGood (by decide)).2.1) [[5], [5]] (by decide),
   ((claim6_sequence_length_checks toyCrypto fixState fixCommitment fixProof
      fixLeafGood fixLeafProof fixPostGood (by decide)).1) [0, 1] (by decide),
   ((claim6_sequence_length_checks toyCrypto fixState fixCommitment fixProof
      fixLeafGood fixLeafProof fixPostGood (by decide)).2.2.2) [] (by decide)⟩

/-- C7: For every seed-expansion function, claimed bitfield and committee
size with at least `threshold committee_len` claimed bits, the randomized
subset selector returns a bitfield with exactly `threshold committee_len` set
bits, all of them set in the claimed bitfield, and its output is a
deterministic function of its three inputs. -/
theorem claim7_random_subset_selector (prf : Nat → Nat) (claimed : List Bool)
    (committee_len : Nat)
    (h : threshold committee_len ≤ count_set_bits claimed) :
    (∃ bf, create_random_bit_field prf claimed committee_len = some bf ∧
      count_set_bits bf = threshold committee_len ∧
      (∀ j, is_set bf j = true → is_set claimed j = true)) ∧
    (∀ g claimed2 len2, g = prf → claimed2 = claimed → len2 = committee_len →
      create_random_bit_field g claimed2 len2
        = create_random_bit_field prf claimed committee_len) := by
  refine ⟨create_random_bit_field_props prf claimed committee_len h, ?_⟩
  intro g claimed2 len2 h1 h2 h3
  rw [h1, h2, h3]

theorem claim7_witness :
    (∃ bf, create_random_bit_field (fun _ => 0) [true, true, true] 3 = some bf ∧
      count_set_bits bf = threshold 3 ∧
      (∀ j, is_set bf j = true → is_set [true, true, true] j = true)) ∧
    (∀ g claimed2 len2, g = (fun _ => 0) → claimed2 = [true, true, true] →
      len2 = 3 →
      create_random_bit_field g claimed2 len2
        = create_random_bit_field (fun _ => 0) [true, true, true] 3) :=
  claim7_random_subset_selector (fun _ => 0) [true, true, true] 3 (by decide)

/-- C8 counterexample: from a freshly initialized state, a fully successful
submission whose leaf embeds a next set with a skipped generation id leaves
the stored pair violating `next.id = current.id + 1`, refuting the claim that
the relation holds after every operation. -/
theorem claim8_counterexample :
    initialize_pallet none fixCurrentSet fixNextSet = .ok fixState ∧
    submit_signature_commitment toyCrypto (some fixState) fixCommitment
      fixProof fixLeafRogue fixLeafProof = .ok fixPostRogue ∧
    ¬ fixPostRogue.next.id = fixPostRogue.current.id + 1 :=
  ⟨by decide, by decide, by decide⟩

/-- C8 (amended): a successful initialization establishes
`next.id = current.id + 1`, and a successful submission preserves the
relation provided that, whenever it rotates (commitment signed by the current
set and leaf's next set different from the stored one), the leaf's embedded
next set carries the successor generation id of the stored next set. -/
theorem claim8_generation_invariant :
    (∀ current_set next_set st',
      initialize_pallet none current_set next_set = .ok st' →
      st'.next.id = st'.current.id + 1) ∧
    (∀ c s commitment vproof leaf leaf_proof st',
      s.next.id = s.current.id + 1 →
      submit_signature_commitment c (some s) commitment vproof leaf leaf_proof
        = .ok st' →
      (commitment.validator_set_id = s.current.id →
        leaf.next_validator_set ≠ s.next →
        leaf.next_validator_set.id = s.next.id + 1) →
      st'.next.id = st'.current.id + 1) := by
  constructor
  · intro current_set next_set st' h
    simp only [initialize_pallet] at h
    by_cases hid : next_set.id = current_set.id + 1
    · rw [if_pos hid] at h
      cases h
      exact hid
    · rw [if_neg hid] at h
      exact absurd h (by simp)
  · intro c s commitment vproof leaf leaf_proof st' hinv hok hleaf
    have hok' : submit_body c s commitment vproof leaf leaf_proof = .ok st' := hok
    obtain ⟨vset, rb, root, _, _, _, _, _, _, _, _, _, _, hrot⟩ :=
      submit_body_ok_elim hok'
    subst hrot
    unfold rotate
    split
    case isTrue hc => exact hleaf hc.1 hc.2
    case isFalse => exact hinv

theorem claim8_witness :
    fixState.next.id = fixState.current.id + 1 ∧
    fixPostGood.next.id = fixPostGood.current.id + 1 :=
  ⟨claim8_generation_invariant.1 fixCurrentSet fixNextSet fixState (by decide),
   claim8_generation_invariant.2 toyCrypto fixState fixCommitment fixProof
     fixLeafGood fixLeafProof fixPostGood (by decide) (by decide)
     (fun _ _ => by decide)⟩

/-- C9: For the multisig peer-set verifier, `remove_peer` fails with
`PeerNotFound` when the key is not in the peer set, fails with
`CannotRemoveBelowThreshold` when removal would shrink the set below the
minimum viable size, and otherwise removes the key and emits a `PeerRemoved`
event; in particular, removing one peer from an initialized three-peer set
succeeds. -/
theorem claim9_remove_peer_behaviour (peers : List Nat) (key : Nat) :
    (key ∉ peers → remove_peer (some peers) key = .error .PeerNotFound) ∧
    (key ∈ peers → peers.length - 1 < min_viable_peer_count →
      remove_peer (some peers) key = .error .CannotRemoveBelowThreshold) ∧
    (key ∈ peers → ¬ peers.length - 1 < min_viable_peer_count →
      remove_peer (some peers) key = .ok (peers.erase key, .PeerRemoved key)) ∧
    (initialize_msig_network none [1, 2, 3] = .ok ([1, 2, 3], .NetworkInitialized) ∧
      remove_peer (some [1, 2, 3]) 1 = .ok ([2, 3], .PeerRemoved 1)) := by
  refine ⟨?_, ?_, ?_, by decide, by decide⟩
  · intro h
    simp only [remove_peer]
    rw [if_pos h]
  · intro h1 h2
    simp only [remove_peer]
    rw [if_neg (fun hc => hc h1), if_pos h2]
  · intro h1 h2
    simp only [remove_peer]
    rw [if_neg (fun hc => hc h1), if_neg h2]

theorem claim9_witness :
    remove_peer (some [1, 2, 3]) 9 = .error .PeerNotFound ∧
    remove_peer (some [4]) 4 = .error .CannotRemoveBelowThreshold ∧
    remove_peer (some [1, 2, 3]) 2 = .ok ([1, 3], .PeerRemoved 2) :=
  ⟨(claim9_remove_peer_behaviour [1, 2, 3] 9).1 (by decide),
   (claim9_remove_peer_behaviour [4] 4).2.1 (by decide) (by decide),
   (claim9_remove_peer_behaviour [1, 2, 3] 2).2.2.1 (by decide) (by decide)⟩

end Sora2
